import Mathlib

/-!
# A verification development for the ChatterLite repository

Shallow embedding, in Lean 4, of the parts of the ChatterLite chat
application that its specification makes testable claims about:

* the reaction aggregator `groupReactions` of the `useMessages` hook;
* the message sending and reaction toggling of the same hook;
* the chat-list synchronizer `fetchChats` of the `useChats` hook;
* the Express route handlers for `POST /api/users/sync` and
  `PATCH /api/friend-requests/:requestId` together with the in-memory
  `MemStorage` store they use.

JavaScript objects keyed by strings are modelled as association lists in
insertion order (`Object.values` preserves the insertion order of string
keys), the JS `Map` of `MemStorage` likewise, nullable fields as `Option`,
timestamps as natural numbers, and JS string falsiness (`!s` true for
`null`/`undefined`/`""`) by explicit predicates.
-/

namespace ChatterLite

/-! ## Reaction aggregator (`groupReactions` in the `useMessages` hook)

The source folds the raw reaction rows of one message into an object keyed
by emoji, incrementing a per-emoji counter and pushing the reacting user id,
and returns `Object.values` of that object. -/

/-- A raw reaction row as delivered by the message fetch: the emoji
reacted with and the reacting user id. -/
structure ReactionRow where
  emoji : String
  user_id : String
  deriving Repr, DecidableEq

/-- One output group of the aggregator: the emoji, the number of rows
folded into the group, and the reacting user ids in insertion order. -/
structure ReactionGroup where
  emoji : String
  count : Nat
  users : List String
  deriving Repr, DecidableEq

/-- One step of the `reactions.forEach` loop of `groupReactions`: if a
group for the row's emoji already exists it receives one more count and
the row's user id is pushed; otherwise a fresh group is appended (string
keys of a JS object stay in insertion order). -/
def addReaction (gs : List ReactionGroup) (r : ReactionRow) : List ReactionGroup :=
  if gs.any (fun g => g.emoji = r.emoji) then
    gs.map (fun g =>
      if g.emoji = r.emoji then
        { g with count := g.count + 1, users := g.users ++ [r.user_id] }
      else g)
  else
    gs ++ [{ emoji := r.emoji, count := 1, users := [r.user_id] }]

/-- `groupReactions` of the `useMessages` hook: fold the raw rows into
per-emoji groups and return the groups in first-seen emoji order. -/
def groupReactions (rs : List ReactionRow) : List ReactionGroup :=
  rs.foldl addReaction []

/-- Total count over a list of groups. -/
def totalCount (gs : List ReactionGroup) : Nat :=
  (gs.map (fun g => g.count)).sum

/-- The user ids recorded for emoji `e` in a list of groups (`[]` when no
group carries `e`). -/
def usersFor (gs : List ReactionGroup) (e : String) : List String :=
  match gs.find? (fun g => g.emoji = e) with
  | some g => g.users
  | none => []

/-- The count recorded for emoji `e` in a list of groups. -/
def countFor (gs : List ReactionGroup) (e : String) : Nat :=
  match gs.find? (fun g => g.emoji = e) with
  | some g => g.count
  | none => 0

lemma addReaction_emojis_of_mem (gs : List ReactionGroup) (r : ReactionRow) :
    (addReaction gs r).map (fun g => g.emoji)
      = gs.map (fun g => g.emoji)
      ∨ (addReaction gs r).map (fun g => g.emoji)
      = gs.map (fun g => g.emoji) ++ [r.emoji] := by
  unfold addReaction
  by_cases h : gs.any (fun g => g.emoji = r.emoji)
  · left
    simp only [h, if_true, List.map_map]
    apply List.map_congr_left
    intro g _
    by_cases hg : g.emoji = r.emoji <;> simp [hg]
  · right
    simp [h]

lemma bump_map_emoji (gs : List ReactionGroup) (e u : String) :
    (gs.map (fun g =>
        if g.emoji = e then
          { g with count := g.count + 1, users := g.users ++ [u] }
        else g)).map (fun g => g.emoji) = gs.map (fun g => g.emoji) := by
  rw [List.map_map]
  apply List.map_congr_left
  intro g _
  by_cases hg : g.emoji = e <;> simp [hg]

lemma addReaction_nodup (gs : List ReactionGroup) (r : ReactionRow)
    (h : (gs.map (fun g => g.emoji)).Nodup) :
    ((addReaction gs r).map (fun g => g.emoji)).Nodup := by
  unfold addReaction
  by_cases hmem : gs.any (fun g => g.emoji = r.emoji)
  · simp only [hmem, if_true]
    rw [bump_map_emoji]
    exact h
  · simp only [hmem, Bool.false_eq_true, if_false, List.map_append, List.map_cons,
      List.map_nil]
    rw [List.nodup_append]
    refine ⟨h, List.nodup_singleton _, ?_⟩
    intro e he
    simp only [List.mem_map] at he
    obtain ⟨g, hg, rfl⟩ := he
    simp only [List.any_eq_true, decide_eq_true_eq] at hmem
    simp only [List.mem_singleton]
    intro hcon
    exact hmem ⟨g, hg, hcon⟩

lemma foldl_addReaction_nodup (rs : List ReactionRow) (gs : List ReactionGroup)
    (h : (gs.map (fun g => g.emoji)).Nodup) :
    ((rs.foldl addReaction gs).map (fun g => g.emoji)).Nodup := by
  induction rs generalizing gs with
  | nil => simpa using h
  | cons r rs ih =>
    simp only [List.foldl_cons]
    exact ih _ (addReaction_nodup gs r h)

lemma totalCount_cons (g : ReactionGroup) (gs : List ReactionGroup) :
    totalCount (g :: gs) = g.count + totalCount gs := by
  simp [totalCount]

lemma totalCount_bump (gs : List ReactionGroup) (e : String) (u : String) :
    totalCount (gs.map (fun g =>
        if g.emoji = e then
          { g with count := g.count + 1, users := g.users ++ [u] }
        else g))
      = totalCount gs + gs.countP (fun g => g.emoji = e) := by
  induction gs with
  | nil => simp [totalCount]
  | cons a as ih =>
    by_cases ha : a.emoji = e
    · simp only [List.map_cons, ha, if_true, totalCount_cons, List.countP_cons,
        decide_eq_true_eq, ih, decide_True, if_false]
      omega
    · simp only [List.map_cons, ha, if_false, totalCount_cons, List.countP_cons,
        decide_eq_true_eq, ih, decide_False, Bool.false_eq_true]
      omega

lemma countP_eq_one_of_nodup (gs : List ReactionGroup) (e : String)
    (h : (gs.map (fun g => g.emoji)).Nodup)
    (hmem : ∃ g ∈ gs, g.emoji = e) :
    gs.countP (fun g => g.emoji = e) = 1 := by
  induction gs with
  | nil => simp at hmem
  | cons a as ih =>
    simp only [List.map_cons, List.nodup_cons] at h
    by_cases ha : a.emoji = e
    · have : as.countP (fun g => g.emoji = e) = 0 := by
        rw [List.countP_eq_zero]
        intro g hg
        simp only [decide_eq_true_eq]
        intro hcon
        exact h.1 (by rw [← ha] at hcon; exact hcon ▸ List.mem_map_of_mem _ hg)
      simp [List.countP_cons, ha, this]
    · obtain ⟨g, hg, hge⟩ := hmem
      rcases List.mem_cons.mp hg with rfl | hg'
      · exact absurd hge ha
      · rw [List.countP_cons]
        simp only [decide_eq_true_eq, ha, if_false]
        simpa using ih h.2 ⟨g, hg', hge⟩

lemma addReaction_totalCount (gs : List ReactionGroup) (r : ReactionRow)
    (h : (gs.map (fun g => g.emoji)).Nodup) :
    totalCount (addReaction gs r) = totalCount gs + 1 := by
  unfold addReaction
  by_cases hmem : gs.any (fun g => g.emoji = r.emoji)
  · simp only [hmem, if_true]
    rw [totalCount_bump]
    simp only [List.any_eq_true, decide_eq_true_eq] at hmem
    rw [countP_eq_one_of_nodup gs r.emoji h hmem]
  · simp [hmem, totalCount]

lemma foldl_addReaction_totalCount (rs : List ReactionRow) (gs : List ReactionGroup)
    (h : (gs.map (fun g => g.emoji)).Nodup) :
    totalCount (rs.foldl addReaction gs) = totalCount gs + rs.length := by
  induction rs generalizing gs with
  | nil => simp
  | cons r rs ih =>
    simp only [List.foldl_cons, List.length_cons]
    rw [ih _ (addReaction_nodup gs r h), addReaction_totalCount gs r h]
    omega

/-- What the first group for emoji `e` looks like after one `addReaction`
step: the step bumps the group of `r.emoji` (creating it when absent) and
leaves every other emoji's first group alone. -/
lemma addReaction_find? (gs : List ReactionGroup) (r : ReactionRow) (e : String) :
    (addReaction gs r).find? (fun g => g.emoji = e) =
      if e = r.emoji then
        match gs.find? (fun g => g.emoji = e) with
        | some g0 => some { g0 with count := g0.count + 1, users := g0.users ++ [r.user_id] }
        | none => some { emoji := r.emoji, count := 1, users := [r.user_id] }
      else gs.find? (fun g => g.emoji = e) := by
  unfold addReaction
  by_cases hmem : gs.any (fun g => g.emoji = r.emoji)
  · simp only [hmem, if_true]
    rw [List.find?_map]
    have hpred : ((fun g : ReactionGroup => decide (g.emoji = e)) ∘
        (fun g : ReactionGroup =>
          if g.emoji = r.emoji then
            { g with count := g.count + 1, users := g.users ++ [r.user_id] }
          else g)) = (fun g : ReactionGroup => decide (g.emoji = e)) := by
      funext g
      by_cases hg : g.emoji = r.emoji <;> simp [hg]
    rw [hpred]
    by_cases he : e = r.emoji
    · simp only [he, if_true]
      cases hf : gs.find? (fun g => g.emoji = r.emoji) with
      | none =>
        simp only [List.any_eq_true, decide_eq_true_eq] at hmem
        obtain ⟨g0, hg0, hge⟩ := hmem
        have := List.find?_eq_none.mp hf g0 hg0
        simp [hge] at this
      | some g0 =>
        have hge : g0.emoji = r.emoji := by
          have := List.find?_some hf
          simpa using this
        simp [Option.map_some, hge]
    · simp only [he, if_false]
      cases hf : gs.find? (fun g => g.emoji = e) with
      | none => simp
      | some g0 =>
        have hge : g0.emoji = e := by
          have := List.find?_some hf
          simpa using this
        have hne : ¬ g0.emoji = r.emoji := by
          rw [hge]
          exact he
        simp [Option.map_some, hne]
  · simp only [hmem, Bool.false_eq_true, if_false]
    have hnone : gs.find? (fun g => g.emoji = r.emoji) = none := by
      rw [List.find?_eq_none]
      intro g hg
      simp only [List.any_eq_true, decide_eq_true_eq] at hmem
      simp only [decide_eq_true_eq]
      exact fun hc => hmem ⟨g, hg, hc⟩
    by_cases he : e = r.emoji
    · subst he
      rw [List.find?_append, hnone]
      simp [List.find?]
    · cases hf : gs.find? (fun g => g.emoji = e) with
      | none =>
        rw [List.find?_append, hf]
        have hne : ¬ r.emoji = e := fun hc => he hc.symm
        simp [List.find?, hne, he]
      | some g0 =>
        rw [List.find?_append, hf]
        simp [he]

lemma addReaction_usersFor (gs : List ReactionGroup) (r : ReactionRow) (e : String) :
    usersFor (addReaction gs r) e =
      if e = r.emoji then usersFor gs e ++ [r.user_id] else usersFor gs e := by
  unfold usersFor
  rw [addReaction_find?]
  by_cases he : e = r.emoji
  · simp only [he, if_true]
    cases gs.find? (fun g => g.emoji = r.emoji) <;> simp
  · simp [he]

lemma addReaction_countFor (gs : List ReactionGroup) (r : ReactionRow) (e : String) :
    countFor (addReaction gs r) e =
      if e = r.emoji then countFor gs e + 1 else countFor gs e := by
  unfold countFor
  rw [addReaction_find?]
  by_cases he : e = r.emoji
  · simp only [he, if_true]
    cases gs.find? (fun g => g.emoji = r.emoji) <;> simp
  · simp [he]

lemma foldl_usersFor (rs : List ReactionRow) (gs : List ReactionGroup) (e : String) :
    usersFor (rs.foldl addReaction gs) e =
      usersFor gs e ++ (rs.filter (fun r => r.emoji = e)).map (fun r => r.user_id) := by
  induction rs generalizing gs with
  | nil => simp
  | cons r rs ih =>
    simp only [List.foldl_cons]
    rw [ih, addReaction_usersFor]
    by_cases he : e = r.emoji
    · simp [he, List.filter_cons, List.append_assoc]
    · have : ¬ r.emoji = e := fun hc => he hc.symm
      simp [he, List.filter_cons, this]

lemma foldl_countFor (rs : List ReactionRow) (gs : List ReactionGroup) (e : String) :
    countFor (rs.foldl addReaction gs) e =
      countFor gs e + (rs.filter (fun r => r.emoji = e)).length := by
  induction rs generalizing gs with
  | nil => simp
  | cons r rs ih =>
    simp only [List.foldl_cons]
    rw [ih, addReaction_countFor]
    by_cases he : e = r.emoji
    · simp only [he, if_true, List.filter_cons, decide_True, List.length_cons]
      omega
    · have : ¬ r.emoji = e := fun hc => he hc.symm
      simp [he, List.filter_cons, this]

lemma find?_self_of_nodup (gs : List ReactionGroup) (g : ReactionGroup)
    (h : (gs.map (fun x => x.emoji)).Nodup) (hg : g ∈ gs) :
    gs.find? (fun x => x.emoji = g.emoji) = some g := by
  induction gs with
  | nil => simp at hg
  | cons a as ih =>
    simp only [List.map_cons, List.nodup_cons] at h
    rcases List.mem_cons.mp hg with rfl | hg'
    · rw [List.find?_cons_of_pos _ (by simp)]
    · have hne : ¬ a.emoji = g.emoji := by
        intro hc
        exact h.1 (hc ▸ List.mem_map_of_mem _ hg')
      rw [List.find?_cons_of_neg _ (by simp [hne])]
      exact ih h.2 hg'

/-- Each group of `groupReactions rs` records exactly the rows of its
emoji, in input order: its user list is the user ids of those rows and its
count is their number. -/
lemma groupReactions_users_count (rs : List ReactionRow) (g : ReactionGroup)
    (hg : g ∈ groupReactions rs) :
    g.users = (rs.filter (fun r => r.emoji = g.emoji)).map (fun r => r.user_id) ∧
    g.count = (rs.filter (fun r => r.emoji = g.emoji)).length := by
  have hnd : ((groupReactions rs).map (fun x => x.emoji)).Nodup :=
    foldl_addReaction_nodup rs [] (by simp)
  have hfind := find?_self_of_nodup _ g hnd hg
  constructor
  · have h1 : usersFor (groupReactions rs) g.emoji = g.users := by
      unfold usersFor
      rw [hfind]
    have h2 := foldl_usersFor rs [] g.emoji
    unfold groupReactions at h1
    rw [h1] at h2
    simpa [usersFor] using h2
  · have h1 : countFor (groupReactions rs) g.emoji = g.count := by
      unfold countFor
      rw [hfind]
    have h2 := foldl_countFor rs [] g.emoji
    unfold groupReactions at h1
    rw [h1] at h2
    simpa [countFor] using h2

/-- C1: for every list of raw reaction rows, the groups returned by
`groupReactions` are pairwise disjoint by emoji (no emoji string appears
in two groups) and the sum of the groups' counts equals the length of the
input. -/
theorem C1_groupReactions_disjoint_and_total (rs : List ReactionRow) :
    List.Pairwise (fun g1 g2 : ReactionGroup => g1.emoji ≠ g2.emoji) (groupReactions rs) ∧
    totalCount (groupReactions rs) = rs.length := by
  constructor
  · have hnd : ((groupReactions rs).map (fun x => x.emoji)).Nodup :=
      foldl_addReaction_nodup rs [] (by simp)
    rw [List.Nodup, List.pairwise_map] at hnd
    exact hnd
  · have := foldl_addReaction_totalCount rs [] (by simp)
    simpa [totalCount] using this

/-- C2 (counterexample): `groupReactions` does not deduplicate repeated
(emoji, user) rows: on two identical rows it returns one group of count 2
listing the same user twice, although only one distinct user reacted. -/
theorem C2_groupReactions_no_dedup_counterexample :
    groupReactions [⟨"x", "u"⟩, ⟨"x", "u"⟩] =
      [{ emoji := "x", count := 2, users := ["u", "u"] }] ∧
    ∃ g ∈ groupReactions [⟨"x", "u"⟩, ⟨"x", "u"⟩], ¬ g.users.Nodup := by
  refine ⟨by decide, ?_⟩
  refine ⟨{ emoji := "x", count := 2, users := ["u", "u"] }, by decide, by decide⟩

/-- C2 (amended): `groupReactions` performs no deduplication of its own;
but whenever the input rows are unique per (emoji, userId) — which the
database's UNIQUE(message_id, user_id, emoji) constraint guarantees for
rows of one message — no user id appears twice in any group and each
group's count equals the number of distinct users reacting with its
emoji. -/
theorem C2_groupReactions_dedup_of_unique_rows (rs : List ReactionRow)
    (h : (rs.map (fun r => (r.emoji, r.user_id))).Nodup) :
    ∀ g ∈ groupReactions rs, g.users.Nodup ∧
      g.count =
        ((rs.filter (fun r => r.emoji = g.emoji)).map (fun r => r.user_id)).dedup.length := by
  intro g hg
  obtain ⟨husers, hcount⟩ := groupReactions_users_count rs g hg
  set lf := rs.filter (fun r => r.emoji = g.emoji) with hlf
  have hsub : List.Sublist (lf.map (fun r => (r.emoji, r.user_id)))
      (rs.map (fun r => (r.emoji, r.user_id))) :=
    (List.filter_sublist rs).map _
  have hlfnd : (lf.map (fun r => (r.emoji, r.user_id))).Nodup := h.sublist hsub
  have hemoji : ∀ r ∈ lf, r.emoji = g.emoji := by
    intro r hr
    have := List.of_mem_filter hr
    simpa using this
  have hcongr : lf.map (fun r => (r.emoji, r.user_id)) =
      (lf.map (fun r => r.user_id)).map (fun u => (g.emoji, u)) := by
    rw [List.map_map]
    apply List.map_congr_left
    intro r hr
    simp [hemoji r hr]
  rw [hcongr] at hlfnd
  have husersnd : (lf.map (fun r => r.user_id)).Nodup := List.Nodup.of_map _ hlfnd
  constructor
  · rw [husers]
    exact husersnd
  · rw [hcount, List.Nodup.dedup husersnd, List.length_map]

/-- Witness for C2 (amended): a concrete duplicate-free input on which the
amended statement is checked by evaluation. -/
theorem C2_groupReactions_dedup_witness :
    (([⟨"x", "u"⟩, ⟨"x", "v"⟩, ⟨"y", "u"⟩] : List ReactionRow).map
        (fun r => (r.emoji, r.user_id))).Nodup ∧
    ∀ g ∈ groupReactions [⟨"x", "u"⟩, ⟨"x", "v"⟩, ⟨"y", "u"⟩], g.users.Nodup ∧
      g.count =
        ((([⟨"x", "u"⟩, ⟨"x", "v"⟩, ⟨"y", "u"⟩] : List ReactionRow).filter
          (fun r => r.emoji = g.emoji)).map (fun r => r.user_id)).dedup.length :=
  ⟨by decide, C2_groupReactions_dedup_of_unique_rows _ (by decide)⟩

/-! ## Sending messages (`sendMessage` in the `useMessages` hook)

`sendMessage(content, messageType = 'text')` returns early when
`!chatId || !user || !content.trim()` and otherwise inserts one row into
the `messages` table with the trimmed content.  JS string falsiness makes
the guard fire for a `null` chat id, an empty chat id, a signed-out user,
and a content that is empty or whitespace only. -/

/-- A row of the `messages` table as inserted by `sendMessage`. -/
structure MessageRow where
  chat_id : String
  sender_id : String
  content : String
  message_type : String
  deriving Repr, DecidableEq

/-- JS truthiness of a nullable string: `null`/`undefined` and `""` are
falsy, every other string truthy. -/
def strTruthy : Option String → Bool
  | none => false
  | some s => s ≠ ""

/-- JS `String.prototype.trim()`: strip leading and trailing whitespace. -/
def jsTrim (s : String) : String :=
  String.mk (((s.data.dropWhile Char.isWhitespace).reverse.dropWhile
    Char.isWhitespace).reverse)

/-- `sendMessage` of the `useMessages` hook, acting on the list of rows of
the `messages` table: guard `!chatId || !user || !content.trim()`, then
insert the row with the trimmed content (the
hook always calls it with the default `messageType = 'text'`). -/
def sendMessage (msgs : List MessageRow) (chatId : Option String)
    (user : Option String) (content : String) (messageType : String := "text") :
    List MessageRow :=
  if ¬ strTruthy chatId ∨ ¬ strTruthy user ∨ jsTrim content = "" then
    msgs
  else
    match chatId, user with
    | some cid, some uid =>
        msgs ++ [{ chat_id := cid, sender_id := uid,
                   content := jsTrim content, message_type := messageType }]
    | _, _ => msgs

/-- C7: with a signed-in user and a real chat id, a text that is empty or
whitespace only after trimming inserts no message row, and a non-blank
text inserts exactly one row of kind "text" whose content is the trimmed
text. -/
theorem C7_sendMessage_blank_noop_nonblank_inserts
    (msgs : List MessageRow) (cid uid content : String)
    (hcid : cid ≠ "") (huid : uid ≠ "") :
    (jsTrim content = "" →
      sendMessage msgs (some cid) (some uid) content = msgs) ∧
    (jsTrim content ≠ "" →
      sendMessage msgs (some cid) (some uid) content =
        msgs ++ [{ chat_id := cid, sender_id := uid,
                   content := jsTrim content, message_type := "text" }]) := by
  constructor
  · intro hblank
    simp [sendMessage, hblank]
  · intro hnonblank
    simp [sendMessage, strTruthy, hcid, huid, hnonblank]

/-- Witness for C7: the blank inputs `""` and `"   "` leave the message
table unchanged and `" hi "` appends exactly the trimmed text row. -/
theorem C7_sendMessage_witness :
    sendMessage [] (some "c1") (some "u1") "" = [] ∧
    sendMessage [] (some "c1") (some "u1") "   " = [] ∧
    sendMessage [] (some "c1") (some "u1") " hi " =
      [{ chat_id := "c1", sender_id := "u1", content := "hi", message_type := "text" }] := by
  refine ⟨?_, ?_, ?_⟩
  · exact (C7_sendMessage_blank_noop_nonblank_inserts [] "c1" "u1" ""
      (by decide) (by decide)).1 (by decide)
  · exact (C7_sendMessage_blank_noop_nonblank_inserts [] "c1" "u1" "   "
      (by decide) (by decide)).1 (by decide)
  · have := (C7_sendMessage_blank_noop_nonblank_inserts [] "c1" "u1" " hi "
      (by decide) (by decide)).2 (by decide)
    simpa using this

/-! ## Toggling reactions (`reactToMessage` in the `useMessages` hook)

`reactToMessage(messageId, emoji)` first queries the single existing
(message, user, emoji) row (`.single()` yields a row exactly when there is
exactly one match, and `null` data otherwise), deletes that row by its id
when present, and inserts a fresh row otherwise. -/

/-- A stored row of the `message_reactions` table, with its
database-generated primary key. -/
structure StoredReaction where
  id : Nat
  message_id : String
  user_id : String
  emoji : String
  deriving Repr, DecidableEq

/-- The `message_reactions` table together with the id generator of the
database (every stored id is below `nextId`). -/
structure ReactionTable where
  rows : List StoredReaction
  nextId : Nat
  deriving Repr, DecidableEq

/-- `reactToMessage` of the `useMessages` hook: select the matching
(message, user, emoji) rows with `.single()` — which hands back a row
exactly when there is exactly one match and `null` otherwise — then
delete that row by id (un-react) or insert a fresh row (react). -/
def reactToMessage (t : ReactionTable) (uid messageId emoji : String) :
    ReactionTable :=
  let matching := t.rows.filter (fun r =>
    r.message_id = messageId ∧ r.user_id = uid ∧ r.emoji = emoji)
  match matching with
  | [existing] => { t with rows := t.rows.filter (fun r => r.id ≠ existing.id) }
  | _ => { rows := t.rows ++ [{ id := t.nextId, message_id := messageId,
                                user_id := uid, emoji := emoji }],
           nextId := t.nextId + 1 }

lemma reactToMessage_insert (t : ReactionTable) (uid messageId emoji : String)
    (h : t.rows.filter (fun r =>
      r.message_id = messageId ∧ r.user_id = uid ∧ r.emoji = emoji) = []) :
    reactToMessage t uid messageId emoji =
      { rows := t.rows ++ [{ id := t.nextId, message_id := messageId,
                             user_id := uid, emoji := emoji }],
        nextId := t.nextId + 1 } := by
  unfold reactToMessage
  rw [h]

lemma reactToMessage_delete (t : ReactionTable) (uid messageId emoji : String)
    (existing : StoredReaction)
    (h : t.rows.filter (fun r =>
      r.message_id = messageId ∧ r.user_id = uid ∧ r.emoji = emoji) = [existing]) :
    reactToMessage t uid messageId emoji =
      { t with rows := t.rows.filter (fun r => r.id ≠ existing.id) } := by
  unfold reactToMessage
  rw [h]

/-- C8: starting from a table with no (message, user, emoji) row for the
given triple, toggling the reaction twice returns the stored reaction rows
to their original state: the first call inserts the row, the second
deletes it. -/
theorem C8_reactToMessage_double_toggle (t : ReactionTable)
    (uid messageId emoji : String)
    (habsent : ∀ r ∈ t.rows,
      ¬ (r.message_id = messageId ∧ r.user_id = uid ∧ r.emoji = emoji))
    (hfresh : ∀ r ∈ t.rows, r.id < t.nextId) :
    (reactToMessage (reactToMessage t uid messageId emoji) uid messageId emoji).rows
      = t.rows := by
  have hfilter : t.rows.filter (fun r =>
      r.message_id = messageId ∧ r.user_id = uid ∧ r.emoji = emoji) = [] := by
    rw [List.filter_eq_nil_iff]
    intro r hr
    simpa using habsent r hr
  have hstep1 : reactToMessage t uid messageId emoji =
      { rows := t.rows ++ [{ id := t.nextId, message_id := messageId,
                             user_id := uid, emoji := emoji }],
        nextId := t.nextId + 1 } :=
    reactToMessage_insert t uid messageId emoji hfilter
  rw [hstep1]
  have hfilter2 : (t.rows ++ [(⟨t.nextId, messageId, uid, emoji⟩ : StoredReaction)]).filter
      (fun r => r.message_id = messageId ∧ r.user_id = uid ∧ r.emoji = emoji) =
      [⟨t.nextId, messageId, uid, emoji⟩] := by
    rw [List.filter_append, hfilter]
    simp
  have hstep2 := reactToMessage_delete
    { rows := t.rows ++ [(⟨t.nextId, messageId, uid, emoji⟩ : StoredReaction)],
      nextId := t.nextId + 1 } uid messageId emoji
    ⟨t.nextId, messageId, uid, emoji⟩ hfilter2
  rw [hstep2]
  show (t.rows ++ [(⟨t.nextId, messageId, uid, emoji⟩ : StoredReaction)]).filter
      (fun r => r.id ≠ t.nextId) = t.rows
  rw [List.filter_append]
  have hkeep : t.rows.filter (fun r => r.id ≠ t.nextId) = t.rows := by
    rw [List.filter_eq_self]
    intro r hr
    simpa using Nat.ne_of_lt (hfresh r hr)
  rw [hkeep]
  simp

/-- Witness for C8: a concrete table holding one unrelated reaction row;
toggling 👍 twice for user u on message m leaves the rows unchanged. -/
theorem C8_reactToMessage_witness :
    (reactToMessage (reactToMessage
        { rows := [{ id := 0, message_id := "m0", user_id := "w", emoji := "✨" }],
          nextId := 1 } "u" "m" "👍") "u" "m" "👍").rows
      = [{ id := 0, message_id := "m0", user_id := "w", emoji := "✨" }] :=
  C8_reactToMessage_double_toggle _ "u" "m" "👍" (by decide) (by decide)

/-! ## Server: `MemStorage` and the Express routes

`MemStorage` keeps `users` and `friendRequests` in JS `Map`s; a `Map` is
modelled as an association list in insertion order with `set` replacing in
place.  The `PATCH /api/friend-requests/:requestId` handler also writes to
the hosted database's `chats` and `chat_members` tables, modelled as lists
with a fresh-id counter for the generated chat id. -/

/-- A stored user of `MemStorage` (`createUserWithId` fills the profile
fields from the request and stamps `isOnline := false` and the clock). -/
structure StoredUser where
  id : String
  email : String
  fullName : String
  avatarUrl : Option String
  isOnline : Bool
  createdAt : Nat
  lastSeen : Nat
  deriving Repr, DecidableEq

/-- A friend request row of `MemStorage` (sender and receiver are nullable
in the schema). -/
structure StoredFriendRequest where
  id : String
  senderId : Option String
  receiverId : Option String
  status : String
  createdAt : Nat
  updatedAt : Nat
  deriving Repr, DecidableEq

/-- A row of the hosted `chats` table as created by the accept side
effect (`is_group: false, created_by: senderId`). -/
structure ServerChat where
  id : Nat
  is_group : Bool
  created_by : String
  deriving Repr, DecidableEq

/-- A row of the hosted `chat_members` table. -/
structure ServerChatMember where
  chat_id : Nat
  user_id : String
  deriving Repr, DecidableEq

/-- The state the modelled routes act on: the two `MemStorage` maps, the
hosted `chats`/`chat_members` tables with their id generator, and the
server clock used for `new Date()`. -/
structure ServerState where
  users : List (String × StoredUser)
  friendRequests : List (String × StoredFriendRequest)
  chats : List ServerChat
  chat_members : List ServerChatMember
  nextChatId : Nat
  now : Nat
  deriving Repr, DecidableEq

/-- `Map.get`: the value stored under a key. -/
def mapGet {α : Type} (m : List (String × α)) (k : String) : Option α :=
  (m.find? (fun p => p.1 = k)).map (fun p => p.2)

/-- `Map.set`: replace the value under an existing key in place, append a
fresh key at the end (JS `Map` preserves insertion order). -/
def mapSet {α : Type} (m : List (String × α)) (k : String) (v : α) :
    List (String × α) :=
  if m.any (fun p => p.1 = k) then
    m.map (fun p => if p.1 = k then (k, v) else p)
  else
    m ++ [(k, v)]

/-- Outcome of a route call: the HTTP status it responds with, plus the
returned user or friend request when the call succeeds. -/
inductive SyncResult where
  | badRequest
  | okUser (u : StoredUser)
  deriving Repr, DecidableEq

/-- `POST /api/users/sync`: reject when id, email or fullName is missing
(JS falsiness), otherwise return the already-stored user for that id, or
create it via `MemStorage.createUserWithId` (avatar `avatarUrl || null`)
when absent. -/
def syncUser (s : ServerState) (id email fullName : Option String)
    (avatarUrl : Option String) : SyncResult × ServerState :=
  if ¬ strTruthy id ∨ ¬ strTruthy email ∨ ¬ strTruthy fullName then
    (.badRequest, s)
  else
    match id, email, fullName with
    | some i, some e, some f =>
      match mapGet s.users i with
      | some u => (.okUser u, s)
      | none =>
        let u : StoredUser :=
          { id := i, email := e, fullName := f,
            avatarUrl := if strTruthy avatarUrl then avatarUrl else none,
            isOnline := false, createdAt := s.now, lastSeen := s.now }
        (.okUser u, { s with users := mapSet s.users i u })
    | _, _, _ => (.badRequest, s)

/-- C10: `POST /api/users/sync` never overwrites an existing user: when
the id is already stored, a second sync call — whatever email, fullName or
avatar it carries — responds with the originally stored user and leaves
the whole server state unchanged. -/
theorem C10_syncUser_idempotent_on_existing (s : ServerState)
    (i : String) (u : StoredUser) (email fullName avatarUrl : Option String)
    (hi : i ≠ "") (hu : mapGet s.users i = some u)
    (hemail : strTruthy email) (hname : strTruthy fullName) :
    syncUser s (some i) email fullName avatarUrl = (.okUser u, s) := by
  unfold syncUser
  have hid : strTruthy (some i) = true := by simpa [strTruthy] using hi
  cases email with
  | none => simp [strTruthy] at hemail
  | some e =>
    cases fullName with
    | none => simp [strTruthy] at hname
    | some f =>
      simp only [hid, hemail, hname, not_true, false_or, or_self, if_false]
      rw [hu]

/-- A sample stored user used by concrete witnesses. -/
def aliceUser : StoredUser :=
  { id := "u1", email := "a@x", fullName := "A", avatarUrl := none,
    isOnline := false, createdAt := 3, lastSeen := 3 }

/-- A sample server state holding only `aliceUser`. -/
def aliceState : ServerState :=
  { users := [("u1", aliceUser)], friendRequests := [], chats := [],
    chat_members := [], nextChatId := 0, now := 9 }

/-- Witness for C10: syncing an already-stored user with a different
email, name and avatar returns the stored user and changes nothing. -/
theorem C10_syncUser_witness :
    syncUser aliceState (some "u1") (some "other@x") (some "Other")
      (some "http://pic") = (.okUser aliceUser, aliceState) :=
  C10_syncUser_idempotent_on_existing aliceState "u1" aliceUser _ _ _
    (by decide) (by decide) (by decide) (by decide)

/-- Modelled from the spec: `storage.updateFriendRequestStatus(requestId,
status)` is called by the PATCH route in `routes.ts` but is not defined in
the sources; per §4.4 of the spec it fails (yields nothing) when the id
does not exist and otherwise commits the new status (stamping
`updatedAt`) and hands the updated request back. -/
def updateFriendRequestStatus (s : ServerState) (requestId status : String) :
    Option StoredFriendRequest × ServerState :=
  match mapGet s.friendRequests requestId with
  | none => (none, s)
  | some fr =>
    let fr' := { fr with status := status, updatedAt := s.now }
    (some fr', { s with friendRequests := mapSet s.friendRequests requestId fr' })

/-- Outcome of the PATCH route: the HTTP status it responds with, plus the
updated friend request on success. -/
inductive PatchResult where
  | badRequest
  | notFound
  | okRequest (fr : StoredFriendRequest)
  deriving Repr, DecidableEq

/-- The HTTP status code each `PatchResult` is sent with. -/
def httpStatus : PatchResult → Nat
  | .badRequest => 400
  | .notFound => 404
  | .okRequest _ => 200

/-- `PATCH /api/friend-requests/:requestId`: reject a missing or invalid
status with 400; answer 404 when the store does not know the id; on a
transition to accepted with truthy sender and receiver ids, additionally
insert one non-group chat (`created_by` = sender) and its two membership
rows as a side effect, then respond with the updated request. -/
def patchFriendRequest (s : ServerState) (requestId : String)
    (status : Option String) : PatchResult × ServerState :=
  match status with
  | none => (.badRequest, s)
  | some st =>
    if st = "accepted" ∨ st = "rejected" then
      match updateFriendRequestStatus s requestId st with
      | (none, s1) => (.notFound, s1)
      | (some fr, s1) =>
        match fr.senderId, fr.receiverId with
        | some su, some ru =>
          if st = "accepted" ∧ su ≠ "" ∧ ru ≠ "" then
            let c : ServerChat :=
              { id := s1.nextChatId, is_group := false, created_by := su }
            (.okRequest fr,
              { s1 with chats := s1.chats ++ [c],
                        chat_members := s1.chat_members ++
                          [{ chat_id := c.id, user_id := su },
                           { chat_id := c.id, user_id := ru }],
                        nextChatId := s1.nextChatId + 1 })
          else (.okRequest fr, s1)
        | _, _ => (.okRequest fr, s1)
    else (.badRequest, s)

/-- C3: PATCHing an unknown request id with status "accepted" answers 404
and leaves the whole state — in particular the chats and chat membership
tables — untouched. -/
theorem C3_patch_unknown_id_not_found (s : ServerState) (requestId : String)
    (h : mapGet s.friendRequests requestId = none) :
    patchFriendRequest s requestId (some "accepted") = (.notFound, s) ∧
    httpStatus (patchFriendRequest s requestId (some "accepted")).1 = 404 := by
  have hres : patchFriendRequest s requestId (some "accepted") = (.notFound, s) := by
    unfold patchFriendRequest updateFriendRequestStatus
    rw [h]
    simp
  exact ⟨hres, by rw [hres]; rfl⟩

/-- Witness for C3: PATCHing the empty store answers 404 and changes
nothing. -/
theorem C3_patch_unknown_id_witness :
    patchFriendRequest aliceState "nope" (some "accepted")
      = (.notFound, aliceState) ∧
    httpStatus (patchFriendRequest aliceState "nope" (some "accepted")).1 = 404 :=
  C3_patch_unknown_id_not_found aliceState "nope" (by decide)

/-- C4: accepting a stored pending friend request from `u1` to `u2`
responds with the request in status "accepted", and afterwards a chat not
present before exists, is not a group chat, and carries exactly two
membership rows — one for `u1`, one for `u2`. -/
theorem C4_patch_accept_creates_chat (s : ServerState) (requestId u1 u2 : String)
    (fr : StoredFriendRequest)
    (hfr : mapGet s.friendRequests requestId = some fr)
    (hpending : fr.status = "pending")
    (hsender : fr.senderId = some u1) (hu1 : u1 ≠ "")
    (hreceiver : fr.receiverId = some u2) (hu2 : u2 ≠ "")
    (hfreshc : ∀ c ∈ s.chats, c.id < s.nextChatId)
    (hfreshm : ∀ m ∈ s.chat_members, m.chat_id < s.nextChatId) :
    (patchFriendRequest s requestId (some "accepted")).1 =
      .okRequest { fr with status := "accepted", updatedAt := s.now } ∧
    ∃ c : ServerChat,
      c ∈ (patchFriendRequest s requestId (some "accepted")).2.chats ∧
      c ∉ s.chats ∧
      c.is_group = false ∧
      (patchFriendRequest s requestId (some "accepted")).2.chat_members.filter
          (fun m => m.chat_id = c.id) =
        [{ chat_id := c.id, user_id := u1 }, { chat_id := c.id, user_id := u2 }] := by
  have heval : patchFriendRequest s requestId (some "accepted") =
      (.okRequest { fr with status := "accepted", updatedAt := s.now },
        { s with
            friendRequests := mapSet s.friendRequests requestId
              { fr with status := "accepted", updatedAt := s.now },
            chats := s.chats ++
              [{ id := s.nextChatId, is_group := false, created_by := u1 }],
            chat_members := s.chat_members ++
              [{ chat_id := s.nextChatId, user_id := u1 },
               { chat_id := s.nextChatId, user_id := u2 }],
            nextChatId := s.nextChatId + 1 }) := by
    unfold patchFriendRequest updateFriendRequestStatus
    rw [hfr]
    simp only [hsender, hreceiver]
    simp [hu1, hu2]
  rw [heval]
  refine ⟨rfl, ⟨{ id := s.nextChatId, is_group := false, created_by := u1 }, ?_, ?_, rfl, ?_⟩⟩
  · simp
  · intro hmem
    exact absurd rfl (Nat.ne_of_lt (hfreshc _ hmem))
  · simp only [List.filter_append]
    have h1 : s.chat_members.filter
        (fun m => m.chat_id = s.nextChatId) = [] := by
      rw [List.filter_eq_nil_iff]
      intro m hm
      simpa using Nat.ne_of_lt (hfreshm m hm)
    rw [h1]
    simp

/-- A sample pending friend request from `u1` to `u2`. -/
def pendingRequest : StoredFriendRequest :=
  { id := "r1", senderId := some "u1", receiverId := some "u2",
    status := "pending", createdAt := 4, updatedAt := 4 }

/-- A sample state holding only `pendingRequest`. -/
def pendingState : ServerState :=
  { users := [], friendRequests := [("r1", pendingRequest)], chats := [],
    chat_members := [], nextChatId := 7, now := 11 }

/-- Witness for C4: accepting the sample pending request returns status
"accepted" and creates the non-group chat 7 with members u1 and u2. -/
theorem C4_patch_accept_witness :
    (patchFriendRequest pendingState "r1" (some "accepted")).1 =
      .okRequest { pendingRequest with status := "accepted", updatedAt := 11 } ∧
    ∃ c : ServerChat,
      c ∈ (patchFriendRequest pendingState "r1" (some "accepted")).2.chats ∧
      c ∉ pendingState.chats ∧
      c.is_group = false ∧
      (patchFriendRequest pendingState "r1" (some "accepted")).2.chat_members.filter
          (fun m => m.chat_id = c.id) =
        [{ chat_id := c.id, user_id := "u1" }, { chat_id := c.id, user_id := "u2" }] :=
  C4_patch_accept_creates_chat pendingState "r1" "u1" "u2" pendingRequest
    (by decide) (by decide) (by decide) (by decide) (by decide) (by decide)
    (by decide) (by decide)

/-! ## Chat list synchronizer (`fetchChats` in the `useChats` hook)

The hook (1) fetches the user's chat memberships joined with each chat's
core fields, (2) publishes `[]` when there are none, (3) fetches the
messages of those chats ordered descending by creation time and keeps the
first row per chat id, (4) resolves the display name and avatar of each
unnamed direct chat from the first other member's profile — the error of
that query is never checked, only its data — and (5) sorts the summaries
by `new Date(lastMessageTime || 0)` descending.  Any thrown error is
caught and the previously published list stays as it was. -/

/-- The chat core fields the membership join carries
(`chats!inner(id, name, is_group, avatar_url, created_at)`). -/
structure ClientChat where
  id : String
  name : Option String
  is_group : Bool
  avatar_url : Option String
  created_at : Option Nat
  deriving Repr, DecidableEq

/-- A row of the latest-messages batch query
(`select chat_id, content, created_at`). -/
structure ClientMessage where
  chat_id : String
  content : String
  created_at : Nat
  deriving Repr, DecidableEq

/-- The profile fields of the other-member lookup
(`users!inner(full_name, avatar_url)`). -/
structure OtherMember where
  full_name : String
  avatar_url : Option String
  deriving Repr, DecidableEq

/-- One published chat summary (the unread count is a hard-coded 0 TODO
and the online flag mirrors `!is_group` in the source; both are carried
faithfully). -/
structure ChatSummary where
  id : String
  name : String
  isGroup : Bool
  avatarUrl : Option String
  lastMessage : Option String
  lastMessageTime : Option Nat
  unreadCount : Nat
  isOnline : Bool
  deriving Repr, DecidableEq

/-- The three queries one refresh performs, each able to fail; the
messages query takes the chat ids collected from the memberships, the
other-member query the chat id it resolves (its result list already
excludes the current user and is limited to one row). -/
structure FetchEnv where
  membershipsQ : Except Unit (List ClientChat)
  messagesQ : List String → Except Unit (List ClientMessage)
  otherMemberQ : String → Except Unit (List OtherMember)

/-- Stable insert for a descending sort: the element goes in front of the
first strictly-smaller key, after every earlier element of equal key —
what a stable JS `sort((a, b) => keyB - keyA)` produces. -/
def insertDescBy {α : Type} (key : α → Nat) (x : α) : List α → List α
  | [] => [x]
  | y :: ys => if key y ≤ key x then x :: y :: ys else y :: insertDescBy key x ys

/-- Stable descending sort by a numeric key. -/
def sortDescBy {α : Type} (key : α → Nat) (l : List α) : List α :=
  l.foldr (insertDescBy key) []

/-- The sort key of the `formattedChats.sort` comparator:
`new Date(lastMessageTime || 0).getTime()`. -/
def sortKey (s : ChatSummary) : Nat :=
  s.lastMessageTime.getD 0

/-- The body of the `chatMembersData.map` callback: attach the first —
most recent — fetched message of the chat, resolve name and avatar of an
unnamed non-group chat from the other member (the profile query's error
is never checked, so a failure there just leaves the fallback name), and
fill the summary. -/
def formatChat (env : FetchEnv) (messagesData : List ClientMessage)
    (chat : ClientChat) : ChatSummary :=
  let lastMessage := messagesData.find? (fun m => m.chat_id = chat.id)
  let resolved : Option String × Option String :=
    if chat.is_group = false ∧ ¬ strTruthy chat.name then
      match env.otherMemberQ chat.id with
      | .error _ => (chat.name, chat.avatar_url)
      | .ok [] => (chat.name, chat.avatar_url)
      | .ok (u :: _) =>
        (some (if u.full_name ≠ "" then u.full_name else "Unknown User"),
         if ¬ strTruthy chat.avatar_url then u.avatar_url else chat.avatar_url)
    else (chat.name, chat.avatar_url)
  { id := chat.id
    name := match resolved.1 with
            | some n => if n ≠ "" then n else "Unknown Chat"
            | none => "Unknown Chat"
    isGroup := chat.is_group
    avatarUrl := resolved.2
    lastMessage := match lastMessage with
                   | some m => if m.content ≠ "" then some m.content else none
                   | none => none
    lastMessageTime := match lastMessage with
                       | some m => some m.created_at
                       | none => chat.created_at
    unreadCount := 0
    isOnline := !chat.is_group }

/-- `fetchChats` of the `useChats` hook: memberships, early `[]` on zero
memberships, latest messages, per-chat formatting, sort; the first two
queries throw into the surrounding catch on error. -/
def fetchChats (env : FetchEnv) : Except Unit (List ChatSummary) :=
  match env.membershipsQ with
  | .error e => .error e
  | .ok memChats =>
    if memChats.isEmpty then .ok []
    else
      match env.messagesQ (memChats.map (fun c => c.id)) with
      | .error e => .error e
      | .ok messagesData =>
        .ok (sortDescBy sortKey (memChats.map (formatChat env messagesData)))

/-- What the surrounding React state does with one refresh: a caught
error leaves the previously published list untouched, a successful
refresh replaces it. -/
def publishChats (r : Except Unit (List ChatSummary))
    (old : List ChatSummary) : List ChatSummary :=
  match r with
  | .error _ => old
  | .ok l => l

/-- The backing tables a refresh reads, for running the queries
themselves: chats, (chat_id, user_id) memberships, messages, and user
profiles keyed by id. -/
structure ChatsDB where
  chats : List ClientChat
  chat_members : List (String × String)
  messages : List ClientMessage
  users : List (String × OtherMember)
  deriving Repr, DecidableEq

/-- The membership join for one user: their membership rows, each
replaced by its chat's core fields (inner join on the chats table). -/
def joinedMemberships (db : ChatsDB) (uid : String) : List ClientChat :=
  (db.chat_members.filter (fun m => m.2 = uid)).filterMap
    (fun m => db.chats.find? (fun c => c.id = m.1))

/-- The other-member lookup for one chat: membership rows of the chat
excluding the current user, inner-joined with the users table, limited to
one row. -/
def otherMemberLookup (db : ChatsDB) (uid : String) (cid : String) :
    List OtherMember :=
  ((db.chat_members.filter (fun m => m.1 = cid ∧ m.2 ≠ uid)).filterMap
    (fun m => (db.users.find? (fun p => p.1 = m.2)).map (fun p => p.2))).take 1

/-- Run the three queries of a refresh against concrete tables; all of
them succeed. -/
def envOfDB (db : ChatsDB) (uid : String) : FetchEnv :=
  { membershipsQ := .ok (joinedMemberships db uid)
    messagesQ := fun chatIds => .ok (sortDescBy (fun m => m.created_at)
      (db.messages.filter (fun m => chatIds.contains m.chat_id)))
    otherMemberQ := fun cid => .ok (otherMemberLookup db uid cid) }

lemma mem_insertDescBy {α : Type} (key : α → Nat) (x a : α) (l : List α) :
    a ∈ insertDescBy key x l ↔ a = x ∨ a ∈ l := by
  induction l with
  | nil => simp [insertDescBy]
  | cons y ys ih =>
    unfold insertDescBy
    by_cases hy : key y ≤ key x
    · simp [hy]
    · simp only [hy, if_false, List.mem_cons, ih]
      tauto

lemma insertDescBy_pairwise {α : Type} (key : α → Nat) (x : α) (l : List α)
    (h : l.Pairwise (fun a b => key b ≤ key a)) :
    (insertDescBy key x l).Pairwise (fun a b => key b ≤ key a) := by
  induction l with
  | nil => simp [insertDescBy]
  | cons y ys ih =>
    rw [List.pairwise_cons] at h
    unfold insertDescBy
    by_cases hy : key y ≤ key x
    · simp only [hy, if_true]
      rw [List.pairwise_cons]
      refine ⟨?_, List.pairwise_cons.mpr h⟩
      intro b hb
      rcases List.mem_cons.mp hb with rfl | hb'
      · exact hy
      · exact le_trans (h.1 b hb') hy
    · simp only [hy, if_false]
      rw [List.pairwise_cons]
      refine ⟨?_, ih h.2⟩
      intro b hb
      rcases (mem_insertDescBy key x b ys).mp hb with rfl | hb'
      · exact le_of_lt (lt_of_not_le hy)
      · exact h.1 b hb'

lemma sortDescBy_pairwise {α : Type} (key : α → Nat) (l : List α) :
    (sortDescBy key l).Pairwise (fun a b => key b ≤ key a) := by
  induction l with
  | nil => simp [sortDescBy]
  | cons x xs ih => exact insertDescBy_pairwise key x _ ih

lemma mem_sortDescBy {α : Type} (key : α → Nat) (a : α) (l : List α) :
    a ∈ sortDescBy key l ↔ a ∈ l := by
  induction l with
  | nil => simp [sortDescBy]
  | cons x xs ih =>
    unfold sortDescBy at *
    rw [List.foldr_cons, mem_insertDescBy, ih, List.mem_cons]

/-- A two-chat table for the sorting scenario: the user belongs to chats
"A" and "B" (membership rows list "B" first), a single message at t=100
sits in "A", "B" has no messages and was created at t=10. -/
def sortScenarioDB : ChatsDB :=
  { chats := [{ id := "A", name := some "Alpha", is_group := true,
                avatar_url := none, created_at := some 50 },
              { id := "B", name := some "Beta", is_group := true,
                avatar_url := none, created_at := some 10 }],
    chat_members := [("B", "u1"), ("A", "u1")],
    messages := [{ chat_id := "A", content := "hello", created_at := 100 }],
    users := [] }

/-- C5: every successfully refreshed chat list is sorted descending by
`lastMessageTime ?? 0` — the most recent message time, falling back to the
chat's creation time, a missing timestamp counting as epoch zero — and in
the concrete scenario (message at t=100 in chat A, chat B message-less
with creation time 10) the published order is [A, B]. -/
theorem C5_fetchChats_sorted_desc :
    (∀ (env : FetchEnv) (l : List ChatSummary), fetchChats env = Except.ok l →
      l.Pairwise (fun a b => sortKey b ≤ sortKey a)) ∧
    (∃ l, fetchChats (envOfDB sortScenarioDB "u1") = Except.ok l ∧
      l.map (fun s => s.id) = ["A", "B"] ∧
      l.map (fun s => s.lastMessageTime) = [some 100, some 10]) := by
  constructor
  · intro env l h
    unfold fetchChats at h
    cases hm : env.membershipsQ with
    | error e => rw [hm] at h; cases h
    | ok mems =>
      rw [hm] at h
      by_cases hne : mems.isEmpty
      · simp only [hne, if_true, Except.ok.injEq] at h
        subst h
        exact List.Pairwise.nil
      · simp only [hne, Bool.false_eq_true, if_false] at h
        cases hq : env.messagesQ (mems.map (fun c => c.id)) with
        | error e => rw [hq] at h; cases h
        | ok msgs =>
          rw [hq] at h
          simp only [Bool.false_eq_true, if_false, Except.ok.injEq] at h
          subst h
          exact sortDescBy_pairwise _ _
  · exact ⟨_, rfl, by decide, by decide⟩

/-- Witness for C5: the scenario refresh succeeds and its published list
is sorted descending by the sort key. -/
theorem C5_fetchChats_sorted_witness :
    ∃ l, fetchChats (envOfDB sortScenarioDB "u1") = Except.ok l ∧
      l.Pairwise (fun a b => sortKey b ≤ sortKey a) := by
  obtain ⟨l, hl, _, _⟩ := C5_fetchChats_sorted_desc.2
  exact ⟨l, hl, C5_fetchChats_sorted_desc.1 _ l hl⟩

/-- A one-chat table where the direct chat partner "u2" has an empty
display name: chat "c1" is unnamed and non-group, its members are "u1"
and "u2", and the stored profile of "u2" is `{full_name: "", avatar_url:
"av2"}`. -/
def emptyNameDB : ChatsDB :=
  { chats := [{ id := "c1", name := none, is_group := false,
                avatar_url := none, created_at := some 5 }],
    chat_members := [("c1", "u1"), ("c1", "u2")],
    messages := [],
    users := [("u2", { full_name := "", avatar_url := some "av2" })] }

/-- C6 (counterexample): when the other member's display name is the
empty string, the summary name is the placeholder "Unknown User", not the
member's display name — `full_name || 'Unknown User'` replaces every
falsy name. -/
theorem C6_other_member_name_counterexample :
    otherMemberLookup emptyNameDB "u1" "c1"
      = [{ full_name := "", avatar_url := some "av2" }] ∧
    fetchChats (envOfDB emptyNameDB "u1") =
      Except.ok [{ id := "c1", name := "Unknown User", isGroup := false,
                   avatarUrl := some "av2", lastMessage := none,
                   lastMessageTime := some 5, unreadCount := 0,
                   isOnline := true }] ∧
    "Unknown User" ≠ ("" : String) := by
  refine ⟨by decide, rfl, by decide⟩

/-- C6 (amended): for an unnamed direct chat whose other-member lookup
yields the profile of `u2`, the published summary carries `u2`'s display
name provided that name is non-empty (an empty one is replaced by the
placeholder "Unknown User"), and — when the chat has no avatar of its own
— `u2`'s avatar. -/
theorem C6_direct_chat_name_from_other_member (db : ChatsDB) (uid : String)
    (c : ClientChat) (u2 : OtherMember)
    (hc : c ∈ joinedMemberships db uid)
    (hgroup : c.is_group = false)
    (hname : ¬ strTruthy c.name)
    (hother : otherMemberLookup db uid c.id = [u2])
    (hfull : u2.full_name ≠ "") :
    ∃ l, fetchChats (envOfDB db uid) = Except.ok l ∧
      ∃ s ∈ l, s.id = c.id ∧ s.name = u2.full_name ∧
        (¬ strTruthy c.avatar_url → s.avatarUrl = u2.avatar_url) := by
  have hne : (joinedMemberships db uid).isEmpty = false := by
    cases hmm : joinedMemberships db uid with
    | nil => rw [hmm] at hc; cases hc
    | cons a l => rfl
  set msgs := sortDescBy (fun m => m.created_at)
      (db.messages.filter (fun m =>
        ((joinedMemberships db uid).map (fun c => c.id)).contains m.chat_id))
    with hmsgs
  have heval : fetchChats (envOfDB db uid) =
      Except.ok (sortDescBy sortKey ((joinedMemberships db uid).map
        (formatChat (envOfDB db uid) msgs))) := by
    unfold fetchChats envOfDB
    rw [hmsgs]
    simp [hne]
  refine ⟨_, heval, formatChat (envOfDB db uid) msgs c, ?_, rfl, ?_, ?_⟩
  · rw [mem_sortDescBy]
    exact List.mem_map_of_mem _ hc
  · unfold formatChat
    have henv : (envOfDB db uid).otherMemberQ c.id = .ok [u2] := by
      show Except.ok (otherMemberLookup db uid c.id) = Except.ok [u2]
      rw [hother]
    simp only [hgroup, hname, not_false_eq_true, and_self, if_true, true_and, henv]
    simp [hfull]
  · intro hav
    unfold formatChat
    have henv : (envOfDB db uid).otherMemberQ c.id = .ok [u2] := by
      show Except.ok (otherMemberLookup db uid c.id) = Except.ok [u2]
      rw [hother]
    simp only [hgroup, hname, not_false_eq_true, and_self, if_true, true_and, henv]
    simp [hav]

/-- Witness for C6 (amended): the same tables as the counterexample but
with a non-empty display name "Bea" for "u2"; the summary shows "Bea" and
u2's avatar. -/
def beaNameDB : ChatsDB :=
  { chats := [{ id := "c1", name := none, is_group := false,
                avatar_url := none, created_at := some 5 }],
    chat_members := [("c1", "u1"), ("c1", "u2")],
    messages := [],
    users := [("u2", { full_name := "Bea", avatar_url := some "av2" })] }

/-- Witness for C6 (amended) at the concrete `beaNameDB` tables. -/
theorem C6_direct_chat_name_witness :
    ∃ l, fetchChats (envOfDB beaNameDB "u1") = Except.ok l ∧
      ∃ s ∈ l, s.id = "c1" ∧ s.name = "Bea" ∧
        (¬ strTruthy (none : Option String) →
          s.avatarUrl = some "av2") := by
  have h := C6_direct_chat_name_from_other_member beaNameDB "u1"
    { id := "c1", name := none, is_group := false,
      avatar_url := none, created_at := some 5 }
    { full_name := "Bea", avatar_url := some "av2" }
    (by decide) (by decide) (by decide) (by decide) (by decide)
  exact h

/-- C9 (amended): a failure of the memberships fetch or of the
latest-messages fetch makes the refresh throw into its catch, so the
previously published list stays untouched. -/
theorem C9_failed_fetch_keeps_previous_list (env : FetchEnv)
    (old : List ChatSummary) :
    (env.membershipsQ = .error () →
      publishChats (fetchChats env) old = old) ∧
    (∀ mems, env.membershipsQ = .ok mems → mems ≠ [] →
      env.messagesQ (mems.map (fun c => c.id)) = .error () →
      publishChats (fetchChats env) old = old) := by
  constructor
  · intro h
    unfold fetchChats
    rw [h]
    rfl
  · intro mems hm hne hq
    unfold fetchChats
    rw [hm]
    have : mems.isEmpty = false := by
      cases mems with
      | nil => exact absurd rfl hne
      | cons a l => rfl
    simp only [this, Bool.false_eq_true, if_false]
    rw [hq]
    rfl

/-- An environment whose other-member profile query always fails while
memberships and messages succeed for one unnamed direct chat. -/
def profileFailEnv : FetchEnv :=
  { membershipsQ := .ok [{ id := "c1", name := none, is_group := false,
                           avatar_url := none, created_at := some 5 }],
    messagesQ := fun _ => .ok [],
    otherMemberQ := fun _ => .error () }

/-- A previously published summary unlike anything `profileFailEnv`
produces. -/
def stalePublished : List ChatSummary :=
  [{ id := "old", name := "Old", isGroup := true, avatarUrl := none,
     lastMessage := none, lastMessageTime := some 99, unreadCount := 0,
     isOnline := false }]

/-- C9 (counterexample): a failing other-member profile fetch does not
abort the refresh — its error is never checked — so the refresh completes
with the placeholder name "Unknown Chat" and overwrites the previously
published list. -/
theorem C9_profile_failure_overwrites_counterexample :
    profileFailEnv.otherMemberQ "c1" = .error () ∧
    publishChats (fetchChats profileFailEnv) stalePublished =
      [{ id := "c1", name := "Unknown Chat", isGroup := false,
         avatarUrl := none, lastMessage := none, lastMessageTime := some 5,
         unreadCount := 0, isOnline := true }] ∧
    publishChats (fetchChats profileFailEnv) stalePublished ≠ stalePublished := by
  refine ⟨rfl, by decide, by decide⟩

/-- An environment whose memberships query fails outright. -/
def membershipsFailEnv : FetchEnv :=
  { membershipsQ := .error (), messagesQ := fun _ => .ok [],
    otherMemberQ := fun _ => .ok [] }

/-- Witness for C9 (amended): with a failing memberships query the
previously published list survives the refresh. -/
theorem C9_failed_fetch_witness :
    publishChats (fetchChats membershipsFailEnv) stalePublished = stalePublished :=
  (C9_failed_fetch_keeps_previous_list membershipsFailEnv stalePublished).1 rfl

end ChatterLite
